import Mathlib

/-!
Verification of the AutomatedMetaGeneration metadata pipeline.

The repository's core Python modules (`semantic_analyzer.py`,
`metadata_generator.py`, `document_processor.py`, `utils.py`, `config.py`)
are referenced by the proof-of-concept notebook but their sources are not
present; the notebook records their observed behaviour (keyword tables,
topic lists, quality scores, reading times).  The definitions below are a
shallow embedding of that pipeline: each is modelled from the system
specification, and where the notebook records concrete outputs the model
is chosen to reproduce them (this is noted on the definition).
Rational numbers stand in for Python floats.
-/

namespace MetaGen

/-- Modelled from the spec: data model §3, `Keyword`
`{ word, frequency, relevance_score }` (code in `semantic_analyzer.py`,
absent from the sources). -/
structure Keyword where
  word : String
  frequency : ℕ
  relevance_score : ℚ
deriving DecidableEq

/-- Modelled from the spec: data model §3, `Entity` `{ text, label,
description }` (code in `semantic_analyzer.py`, absent from the sources). -/
structure Entity where
  text : String
  label : String
  description : String
deriving DecidableEq

/-- Modelled from the spec: data model §3, `TextStatistics` (code in
`semantic_analyzer.py`, absent from the sources). -/
structure TextStatistics where
  sentence_count : ℕ
  word_count : ℕ
  character_count : ℕ
  paragraph_count : ℕ
  average_words_per_sentence : ℚ
  average_characters_per_word : ℚ
deriving DecidableEq

/-- Modelled from the spec: data model §3, `SemanticAnalysisResult`, the
sole output of the Semantic Analyzer (§4.6). -/
structure SemanticAnalysisResult where
  text_statistics : TextStatistics
  keywords : List Keyword
  entities : List Entity
  topics : List String
  summary : String
  language : String
  sentiment : String
  readability_score : ℚ
deriving DecidableEq

/-- Modelled from the spec: data model §3, `DerivedMetadata`.  The
estimated reading time is kept in whole minutes. -/
structure DerivedMetadata where
  title : String
  description : String
  category : String
  content_type : String
  quality_score : ℚ
  complexity_level : String
  estimated_reading_time : ℕ
  primary_language : String
  top_keywords : List String
  main_topics : List String
  key_entities : List String
deriving DecidableEq

/-- Modelled from the spec: §3 `ExtractedDocument` plus the basic document
facts (filename, size) the Metadata Derivation Engine consumes. -/
structure DocumentFacts where
  filename : String
  file_size_bytes : ℕ
  extraction_method : String
  success : Bool
  text : String
  page_count : ℕ
  error : Option String
deriving DecidableEq

/-- Modelled from the spec: the `document_info` nested mapping of a
persisted `MetadataRecord` (§3, and the notebook's recorded JSON layout). -/
structure DocumentInfo where
  filename : String
  file_extension : String
  file_size_bytes : ℕ
deriving DecidableEq

/-- Modelled from the spec: the `extraction_info` nested mapping of a
persisted `MetadataRecord`.  The notebook's recorded JSON structure for
this mapping is `{extraction_method, page_count, text, character_count,
word_count}`, so the mapping carries a `text` field. -/
structure ExtractionInfo where
  extraction_method : String
  page_count : ℕ
  text : String
  character_count : ℕ
  word_count : ℕ
deriving DecidableEq

/-- Modelled from the spec: §3 `processing_info`
`{timestamp, version, success, errors}`.  The timestamp is an abstract
clock value supplied by the orchestrator. -/
structure ProcessingInfo where
  timestamp : ℕ
  version : String
  success : Bool
  errors : List String
deriving DecidableEq

/-- Modelled from the spec: §3 `MetadataRecord`, the top-level persisted
entity.  `derived_metadata` is absent (`none`) when processing failed
before the derivation stage. -/
structure MetadataRecord where
  document_info : DocumentInfo
  extraction_info : ExtractionInfo
  content_analysis : SemanticAnalysisResult
  processing_info : ProcessingInfo
  derived_metadata : Option DerivedMetadata
deriving DecidableEq

/-- Modelled from the spec: §3 `BatchRun` aggregate
`{ total_files, successful, failed, errors }`. -/
structure BatchStats where
  total_files : ℕ
  successful : ℕ
  failed : ℕ
  errors : List String
deriving DecidableEq

/-- ASCII lower-casing of one character. -/
def lowerChar (c : Char) : Char :=
  if 'A' ≤ c ∧ c ≤ 'Z' then Char.ofNat (c.toNat + 32) else c

/-- ASCII upper-casing of one character. -/
def upperChar (c : Char) : Char :=
  if 'a' ≤ c ∧ c ≤ 'z' then Char.ofNat (c.toNat - 32) else c

/-- A character that survives token normalization (letters and digits). -/
def isWordChar (c : Char) : Bool := c.isAlpha || c.isDigit

/-- Splits a character list at every character satisfying `p`; the
accumulator holds the current chunk reversed. -/
def splitOnPred (p : Char → Bool) : List Char → List Char → List (List Char)
  | [], cur => [cur.reverse]
  | c :: cs, cur =>
    if p c then cur.reverse :: splitOnPred p cs []
    else splitOnPred p cs (c :: cur)

/-- Modelled from the spec: Tokenizer §4.1 word normalization — lower-case
and strip punctuation from one raw token. -/
def normalizeToken (s : String) : String :=
  String.mk ((s.data.map lowerChar).filter isWordChar)

/-- The raw whitespace-delimited chunks of a text. -/
def rawChunks (t : String) : List (List Char) :=
  (splitOnPred Char.isWhitespace t.data []).filter (fun l => !l.isEmpty)

/-- Modelled from the spec: Tokenizer §4.1 — the ordered sequence of
normalized word tokens (lower-cased, punctuation stripped, empty tokens
discarded). -/
def tokenize_words (t : String) : List String :=
  ((rawChunks t).map (fun l => normalizeToken (String.mk l))).filter (fun w => !w.isEmpty)

/-- The raw whitespace-split words of a text, lower-cased but with
punctuation retained (the notebook's recorded topic lists, e.g.
"healthcare:" and "(ai)", show the fallback topic path keeps
punctuation-attached tokens). -/
def raw_words (t : String) : List String :=
  (rawChunks t).map (fun l => String.mk (l.map lowerChar))

/-- Sentence-terminal punctuation (§4.1). -/
def isSentenceEnd (c : Char) : Bool := c == '.' || c == '!' || c == '?'

/-- Modelled from the spec: Tokenizer §4.1 — sentences are the segments
between sentence-terminal punctuation that contain a non-whitespace
character. -/
def sentences (t : String) : List String :=
  ((splitOnPred isSentenceEnd t.data []).filter
    (fun s => s.any (fun c => !c.isWhitespace))).map String.mk

/-- A line consisting only of whitespace. -/
def isBlankLine (l : List Char) : Bool := l.all Char.isWhitespace

/-- Counts maximal runs of non-blank lines; the Bool argument records
whether the previous line was non-blank. -/
def paragraphCountAux : List (List Char) → Bool → ℕ
  | [], _ => 0
  | l :: rest, inPar =>
    (if !isBlankLine l && !inPar then 1 else 0) + paragraphCountAux rest (!isBlankLine l)

/-- Modelled from the spec: Tokenizer §4.1 — paragraph count based on
blank-line separators. -/
def paragraph_count (t : String) : ℕ :=
  paragraphCountAux (splitOnPred (fun c => c == '\n') t.data []) false

/-- Modelled from the spec: §3 `TextStatistics` recomputed fresh per
document from the raw text. -/
def text_statistics (t : String) : TextStatistics :=
  let ws := tokenize_words t
  let ss := sentences t
  let nonWS := (t.data.filter (fun c => !c.isWhitespace)).length
  { sentence_count := ss.length
    word_count := ws.length
    character_count := t.length
    paragraph_count := paragraph_count t
    average_words_per_sentence :=
      if ss.length = 0 then 0 else (ws.length : ℚ) / (ss.length : ℚ)
    average_characters_per_word :=
      if ws.length = 0 then 0 else (nonWS : ℚ) / (ws.length : ℚ) }

/-- Modelled from the spec: the global default stop-word set (§9 names it
part of the immutable configuration in `config.py`, absent from the
sources).  A standard English list; it must contain "has" and must not
contain content words such as "including", which the notebook's recorded
keyword table shows surviving the filter. -/
def STOP_WORDS : List String :=
  ["a", "an", "the", "and", "or", "but", "if", "then", "else", "when",
   "while", "at", "by", "for", "with", "about", "against", "between",
   "into", "through", "during", "before", "after", "above", "below",
   "to", "from", "up", "down", "in", "out", "on", "off", "over", "under",
   "again", "further", "once", "here", "there", "all", "any", "both",
   "each", "few", "more", "most", "other", "some", "such", "no", "nor",
   "not", "only", "own", "same", "so", "than", "too", "very", "can",
   "will", "just", "should", "now", "is", "are", "was", "were", "be",
   "been", "being", "have", "has", "had", "having", "do", "does", "did",
   "doing", "of", "it", "its", "this", "that", "these", "those", "as",
   "we", "our", "they", "their", "he", "she", "his", "her", "you",
   "your", "i", "me", "my"]

/-- Modelled from the spec: Keyword Scorer §4.2 token admission — at least
`minLen` characters (default 3) and not a stop word. -/
def keepToken (stop : List String) (minLen : ℕ) (w : String) : Bool :=
  decide (minLen ≤ w.length) && !(stop.contains w)

/-- Internal ranking entry of the Keyword Scorer: a distinct admitted
token with its frequency and the index of its first occurrence among the
admitted tokens. -/
structure KWEntry where
  word : String
  frequency : ℕ
  firstIdx : ℕ
deriving DecidableEq

/-- Fuel-bounded worker for `uniqueFirst`; the fuel always suffices when
it is at least the list length, since filtering only shortens the tail. -/
def uniqueFirstAux : ℕ → List String → List String
  | _, [] => []
  | 0, _ :: _ => []
  | n + 1, w :: ws => w :: uniqueFirstAux n (ws.filter (fun v => v != w))

/-- The distinct elements of a list in first-occurrence order. -/
def uniqueFirst (l : List String) : List String := uniqueFirstAux l.length l

/-- The admitted tokens of the Keyword Scorer (after length and stop-word
filtering), in input order. -/
def filteredTokens (stop : List String) (minLen : ℕ) (tokens : List String) : List String :=
  tokens.filter (keepToken stop minLen)

/-- Modelled from the spec: Keyword Scorer §4.2 — frequency per distinct
token after stop-word/length filtering, tagged with first-occurrence
index. -/
def kwEntries (stop : List String) (minLen : ℕ) (tokens : List String) : List KWEntry :=
  (uniqueFirst (filteredTokens stop minLen tokens)).map
    (fun w => { word := w, frequency := (filteredTokens stop minLen tokens).count w,
                firstIdx := (filteredTokens stop minLen tokens).indexOf w })

/-- Boolean ranking comparison: `a` comes (weakly) before `b` when it has
strictly larger frequency, or equal frequency and a first occurrence no
later than `b`'s. -/
def entryBefore (a b : KWEntry) : Bool :=
  decide (b.frequency < a.frequency) ||
    (a.frequency == b.frequency && decide (a.firstIdx ≤ b.firstIdx))

/-- Inserts an entry into a ranked list, after every entry that ranks
before it. -/
def insertEntry (x : KWEntry) : List KWEntry → List KWEntry
  | [] => [x]
  | y :: ys => if entryBefore y x then y :: insertEntry x ys else x :: y :: ys

/-- Insertion sort by descending frequency with first-occurrence
tie-break. -/
def sortEntries : List KWEntry → List KWEntry
  | [] => []
  | x :: xs => insertEntry x (sortEntries xs)

/-- The ranked keyword entries actually returned (descending relevance,
first-occurrence tie-break, truncated to the result budget). -/
def rankedEntries (tokens stop : List String) (minLen maxN : ℕ) : List KWEntry :=
  (sortEntries (kwEntries stop minLen tokens)).take maxN

/-- Modelled from the spec: Keyword Scorer §4.2 — relevance_score is
frequency divided by the total token count (plain term frequency; the
notebook's recorded table, e.g. "healthcare" frequency 7 score 0.029 in a
240-word document, fixes the denominator as the full pre-filter token
count). -/
def score_keywords (tokens stop : List String) (minLen maxN : ℕ) : List Keyword :=
  (rankedEntries tokens stop minLen maxN).map
    (fun e => { word := e.word, frequency := e.frequency,
                relevance_score := (e.frequency : ℚ) / (tokens.length : ℚ) })

/-- A vowel for the syllable heuristic. -/
def isVowelChar (c : Char) : Bool :=
  c == 'a' || c == 'e' || c == 'i' || c == 'o' || c == 'u' || c == 'y'

/-- Counts maximal vowel groups; the Bool records whether the previous
character was a vowel. -/
def vowelGroups : List Char → Bool → ℕ
  | [], _ => 0
  | c :: cs, prev =>
    if isVowelChar c then (if prev then 0 else 1) + vowelGroups cs true
    else vowelGroups cs false

/-- Modelled from the spec: Readability Estimator §4.3 — approximate
syllable count of one word by vowel-group counting, at least one. -/
def syllableCount (w : String) : ℕ := max 1 (vowelGroups w.data false)

/-- Total approximate syllable count of a token sequence. -/
def totalSyllables (toks : List String) : ℕ := (toks.map syllableCount).sum

/-- Modelled from the spec: Readability Estimator §4.3 — a standard
weighted formula (Flesch reading ease) over average sentence length and
average syllables per word, clamped to `[0, 100]`, and exactly 0 when the
sentence count is 0. -/
def readability_formula (sc wc syl : ℕ) : ℚ :=
  if sc = 0 then 0
  else if wc = 0 then 0
  else
    max 0 (min 100
      (206835/1000 - (1015/1000) * ((wc : ℚ) / (sc : ℚ))
        - (846/10) * ((syl : ℚ) / (wc : ℚ))))

/-- Modelled from the spec: §4.6 sentiment lexicons (part of the default
configuration, absent from the sources). -/
def POSITIVE_WORDS : List String :=
  ["good", "great", "excellent", "positive", "benefit", "benefits",
   "improve", "improves", "improved", "success", "successful",
   "advantage", "advantages", "effective", "better"]

/-- Modelled from the spec: §4.6 sentiment lexicons (negative side). -/
def NEGATIVE_WORDS : List String :=
  ["bad", "poor", "negative", "problem", "problems", "fail", "fails",
   "failed", "failure", "challenge", "challenges", "risk", "risks",
   "concern", "concerns", "worse"]

/-- Modelled from the spec: §4.6 — lexicon-count sentiment label. -/
def sentiment_of (toks : List String) : String :=
  let p := toks.countP (fun w => POSITIVE_WORDS.contains w)
  let n := toks.countP (fun w => NEGATIVE_WORDS.contains w)
  if n < p then "positive" else if p < n then "negative" else "neutral"

/-- Modelled from the spec: Entity/Topic Extractor §4.5 fallback topic
path.  The notebook's recorded topic list ("artificial, intelligence,
healthcare:, comprehensive, analysis, introduction:, (ai), emerged,
transformative, technology") shows the fallback takes the first distinct
raw whitespace-split words (lower-cased, punctuation retained, length and
stop-word filtered) in first-occurrence order, not the scored keywords. -/
def fallback_topics (t : String) (stop : List String) (minLen maxN : ℕ) : List String :=
  (uniqueFirst ((raw_words t).filter (keepToken stop minLen))).take maxN

/-- An optional linguistic-model capability: when available it maps the
text to entities and topics (§4.5 variant Available); `none` is the
Unavailable variant. -/
def EntityExtractor : Type := String → List Entity × List String

/-- Modelled from the spec: Semantic Analyzer §4.6 — sequences
tokenization, statistics, keyword scoring, readability, summarization and
entity/topic extraction into one `SemanticAnalysisResult`. -/
def analyze_text (extractor : Option EntityExtractor) (t : String) : SemanticAnalysisResult :=
  let toks := tokenize_words t
  let stats := text_statistics t
  let entsTopics : List Entity × List String :=
    match extractor with
    | some f => f t
    | none => ([], fallback_topics t STOP_WORDS 3 10)
  { text_statistics := stats
    keywords := score_keywords toks STOP_WORDS 3 20
    entities := entsTopics.1
    topics := entsTopics.2
    summary := String.intercalate " " ((sentences t).take 3)
    language := "en"
    sentiment := sentiment_of toks
    readability_score :=
      readability_formula stats.sentence_count stats.word_count (totalSyllables toks) }

/-- Drops the (last-dot) extension from a filename's characters. -/
def dropExtension (l : List Char) : List Char :=
  if l.contains '.' then (((l.reverse).dropWhile (fun c => c != '.')).drop 1).reverse
  else l

/-- A filename separator replaced by a space in titles. -/
def isSepChar (c : Char) : Bool := c == '_' || c == '-' || c.isWhitespace

/-- Upper-cases the first character of a word. -/
def capitalizeChars : List Char → List Char
  | [] => []
  | c :: cs => upperChar c :: cs

/-- Modelled from the spec: §4.7 Title — strip the extension, replace
separators with spaces, title-case (a pure string transform of the
filename; the notebook records "ai_healthcare_analysis.txt" ↦
"Ai Healthcare Analysis"). -/
def title_from_filename (fn : String) : String :=
  String.intercalate " "
    (((splitOnPred isSepChar (dropExtension fn.data) []).filter
        (fun l => !l.isEmpty)).map
      (fun l => String.mk (capitalizeChars (l.map lowerChar))))

/-- The extension (with dot) of a filename, or "". -/
def fileExtension (fn : String) : String :=
  if fn.data.contains '.' then
    String.mk ('.' :: ((fn.data.reverse.takeWhile (fun c => c != '.')).reverse))
  else ""

/-- Modelled from the spec: §4.7 Category — fixed priority list of
category keyword sets; first matching rule wins. -/
def CATEGORY_RULES : List (List String × String) :=
  [(["research", "study", "analysis", "academic", "paper", "methodology"],
    "Academic/Research"),
   (["system", "server", "api", "software", "technical", "computer",
     "network", "installation", "configuration"], "Technical/IT"),
   (["meeting", "minutes", "agenda", "policy", "budget", "business"],
    "Business/Administrative")]

/-- Modelled from the spec: §4.7 Category — match the top keywords
against the rule sets in priority order; no match gives
"General Document". -/
def category_of (kws : List Keyword) : String :=
  match CATEGORY_RULES.find?
      (fun rule => ((kws.map Keyword.word).take 10).any (fun w => rule.1.contains w)) with
  | some rule => rule.2
  | none => "General Document"

/-- A line that starts (after indentation) with a digit followed by "."
or ")" — the numbered-list structural cue of §4.7. -/
def startsNumbered (l : List Char) : Bool :=
  match l.dropWhile Char.isWhitespace with
  | c :: d :: _ => c.isDigit && (d == '.' || d == ')')
  | _ => false

/-- Modelled from the spec: §4.7 Content type — "Instructional" when a
numbered-list cue is present, default "Informational". -/
def content_type_of (t : String) : String :=
  if (splitOnPred (fun c => c == '\n') t.data []).any startsNumbered then "Instructional"
  else "Informational"

/-- Modelled from the spec: §4.7 Complexity level — thresholds on average
words per sentence and average characters per word. -/
def complexity_level_of (wps cpw : ℚ) : String :=
  if wps ≤ 10 ∧ cpw ≤ 5 then "Simple"
  else if wps ≤ 15 ∧ cpw ≤ 6 then "Moderate"
  else if wps ≤ 20 ∧ cpw ≤ 7 then "Complex"
  else "Very Complex"

/-- Modelled from the spec: §4.7 word-count sufficiency factor — a
diminishing-returns curve, linear up to a saturation point of 50 words
(the notebook's recorded quality scores, identical for 98-word and
374-word documents, place saturation at or below 98 words). -/
def word_count_factor (wc : ℕ) : ℚ := 20 * ((min wc 50 : ℕ) : ℚ) / 50

/-- Modelled from the spec: §4.7 readability contribution to quality — a
tiered bonus, monotone in the readability score (the notebook records a
quality of 75 at readability 46.2 versus 70 at readability below 30). -/
def readability_bonus (r : ℚ) : ℚ :=
  if 80 ≤ r then 20 else if 60 ≤ r then 10 else if 30 ≤ r then 5 else 0

/-- Modelled from the spec: §4.7 Quality score — weighted composite in
`[0, 100]`: extraction success is a binary gate, plus word-count
sufficiency, non-empty keyword/entity bonuses and a readability
contribution.  Weights are chosen to reproduce the notebook's recorded
scores (70 for successful keyword-bearing documents of ≥ 98 words with
readability below 30; 75 when readability is 46.2). -/
def quality_score_of (success : Bool) (wc : ℕ) (hasKw hasEnt : Bool) (r : ℚ) : ℚ :=
  if success then
    min 100 (40 + word_count_factor wc + (if hasKw then 10 else 0)
      + (if hasEnt then 10 else 0) + readability_bonus r)
  else 0

/-- Modelled from the spec: §4.7 Estimated reading time — word count at a
reading speed of 200 words per minute with a floor of one minute.  The
notebook records "Reading Time: 1 minute" for a 240-word document, so the
division rounds down (the spec's claim of rounding up would give 2). -/
def reading_time_minutes (wc : ℕ) : ℕ := max 1 (wc / 200)

/-- Modelled from the spec: the reading-time formula exactly as the spec
words it — "word_count / assumed reading speed (e.g., 200 wpm), rounded up
to the nearest whole minute, floor of 1 minute" — for comparison with the
behaviour the notebook records. -/
def reading_time_spec_roundup (wc : ℕ) : ℕ := max 1 ((wc + 199) / 200)

/-- Modelled from the spec: Metadata Derivation Engine §4.7 — a pure
function of the analysis result and document facts. -/
def derive_metadata (a : SemanticAnalysisResult) (f : DocumentFacts) : DerivedMetadata :=
  { title := title_from_filename f.filename
    description := String.mk (a.summary.data.take 200)
    category := category_of a.keywords
    content_type := content_type_of f.text
    quality_score :=
      quality_score_of f.success a.text_statistics.word_count
        (!a.keywords.isEmpty) (!a.entities.isEmpty) a.readability_score
    complexity_level :=
      complexity_level_of a.text_statistics.average_words_per_sentence
        a.text_statistics.average_characters_per_word
    estimated_reading_time := reading_time_minutes a.text_statistics.word_count
    primary_language := a.language
    top_keywords := (a.keywords.map Keyword.word).take 10
    main_topics := a.topics.take 10
    key_entities := (a.entities.map Entity.text).take 10 }

/-- Modelled from the spec: Pipeline Orchestrator §4.8, per-document run —
extraction → analysis → derivation; failure at extraction short-circuits
the later stages but still emits a `MetadataRecord` with
`processing_info.success = false` and a populated error list.  `now` is
the orchestrator's clock, used only for the processing timestamp. -/
def generate_metadata (extractor : Option EntityExtractor) (f : DocumentFacts) (now : ℕ) :
    MetadataRecord :=
  { document_info :=
      { filename := f.filename, file_extension := fileExtension f.filename,
        file_size_bytes := f.file_size_bytes }
    extraction_info :=
      { extraction_method := f.extraction_method, page_count := f.page_count,
        text := if f.success then f.text else "",
        character_count := if f.success then f.text.length else 0,
        word_count := if f.success then (tokenize_words f.text).length else 0 }
    content_analysis :=
      if f.success then analyze_text extractor f.text else analyze_text extractor ""
    processing_info :=
      { timestamp := now, version := "1.0", success := f.success,
        errors := if f.success then [] else [f.error.getD "Extraction failed"] }
    derived_metadata :=
      if f.success then some (derive_metadata (analyze_text extractor f.text) f)
      else none }

/-- Modelled from the spec: Pipeline Orchestrator §4.8 batch operation —
processes each document independently, continues past per-document
failures, and returns the ordered record sequence plus the `BatchRun`
aggregate. -/
def process_directory (extractor : Option EntityExtractor) (docs : List DocumentFacts)
    (now : ℕ) : List MetadataRecord × BatchStats :=
  (docs.map (fun d => generate_metadata extractor d now),
   { total_files := docs.length
     successful := docs.countP (fun d => d.success)
     failed := docs.countP (fun d => !d.success)
     errors := (docs.filter (fun d => !d.success)).map
       (fun d => d.error.getD "Extraction failed") })

/-- Ranking order as a proposition: `a` ranks (weakly) before `b` —
strictly larger frequency, or equal frequency and no later first
occurrence. -/
def entryLE (a b : KWEntry) : Prop :=
  b.frequency < a.frequency ∨ (a.frequency = b.frequency ∧ a.firstIdx ≤ b.firstIdx)

/-- Strict ranking order: descending frequency with ties broken by
strictly earlier first occurrence. -/
def entryOrdered (a b : KWEntry) : Prop :=
  b.frequency < a.frequency ∨ (a.frequency = b.frequency ∧ a.firstIdx < b.firstIdx)

/-- The spec's §8 example input text. -/
def exampleText : String :=
  "Healthcare AI improves diagnosis. Healthcare AI reduces costs."

/-- The opening of the notebook's sample document, whose recorded topic
list fixes the fallback topic behaviour. -/
def introText : String :=
  "Artificial Intelligence in Healthcare: A Comprehensive Analysis Introduction: Artificial Intelligence (AI) has emerged as a transformative technology in healthcare, revolutionizing patient care, diagnosis, and treatment methodologies."

/-- A concrete successfully-extracted document, used to instantiate
theorems with hypotheses. -/
def sampleFacts : DocumentFacts :=
  { filename := "sample_doc.txt", file_size_bytes := 1200,
    extraction_method := "direct_text_read", success := true,
    text := "Healthcare AI improves diagnosis. Healthcare AI reduces costs.",
    page_count := 1, error := none }

/-- A concrete document whose extraction failed. -/
def failedFacts : DocumentFacts :=
  { filename := "broken.pdf", file_size_bytes := 4096,
    extraction_method := "pdf_parse", success := false, text := "",
    page_count := 0, error := some "Unreadable or corrupt file" }

/-- The text statistics the notebook records for the 240-word sample
document. -/
def sampleStats240 : TextStatistics :=
  { sentence_count := 12, word_count := 240, character_count := 1989,
    paragraph_count := 1, average_words_per_sentence := 20,
    average_characters_per_word := 7 }

/-- A concrete analysis result with the recorded 240-word statistics. -/
def sampleAnalysis240 : SemanticAnalysisResult :=
  { text_statistics := sampleStats240,
    keywords := [{ word := "healthcare", frequency := 7,
                   relevance_score := ((7:ℕ):ℚ)/((240:ℕ):ℚ) }],
    entities := [], topics := ["healthcare"], summary := "",
    language := "en", sentiment := "neutral", readability_score := 0 }

theorem mem_uniqueFirstAux : ∀ (n : ℕ) (l : List String),
    ∀ w, w ∈ uniqueFirstAux n l → w ∈ l := by
  intro n
  induction n with
  | zero =>
    intro l w h
    cases l with
    | nil => simp [uniqueFirstAux] at h
    | cons a as => simp [uniqueFirstAux] at h
  | succ n ih =>
    intro l w h
    cases l with
    | nil => simp [uniqueFirstAux] at h
    | cons a as =>
      rw [uniqueFirstAux] at h
      rcases List.mem_cons.1 h with h1 | h1
      · exact h1 ▸ List.mem_cons_self _ _
      · exact List.mem_cons_of_mem _ (List.mem_of_mem_filter (ih _ _ h1))

theorem mem_uniqueFirst (l : List String) : ∀ w, w ∈ uniqueFirst l → w ∈ l :=
  mem_uniqueFirstAux l.length l

theorem nodup_uniqueFirstAux : ∀ (n : ℕ) (l : List String),
    (uniqueFirstAux n l).Nodup := by
  intro n
  induction n with
  | zero =>
    intro l
    cases l with
    | nil => simp [uniqueFirstAux]
    | cons a as => simp [uniqueFirstAux]
  | succ n ih =>
    intro l
    cases l with
    | nil => simp [uniqueFirstAux]
    | cons a as =>
      rw [uniqueFirstAux]
      refine List.nodup_cons.2 ⟨?_, ih _⟩
      intro hmem
      have h2 := mem_uniqueFirstAux _ _ _ hmem
      rw [List.mem_filter] at h2
      simp at h2

theorem nodup_uniqueFirst (l : List String) : (uniqueFirst l).Nodup :=
  nodup_uniqueFirstAux l.length l

theorem count_add_length_filter_ne (w : String) (ws : List String) :
    ws.count w + (ws.filter (fun v => v != w)).length = ws.length := by
  induction ws with
  | nil => simp
  | cons v vs ih =>
    by_cases h : v = w
    · subst h
      simp only [List.count_cons, List.filter_cons, bne_self_eq_false,
        Bool.false_eq_true, if_false, beq_self_eq_true, if_true, List.length_cons]
      omega
    · have hbne : (v != w) = true := bne_iff_ne.mpr h
      have hba : (v == w) = false := beq_eq_false_iff_ne.2 h
      simp only [List.count_cons, List.filter_cons, hbne, if_true, hba,
        Bool.false_eq_true, if_false, List.length_cons]
      omega

theorem sum_count_uniqueFirstAux : ∀ (n : ℕ) (l : List String), l.length ≤ n →
    ((uniqueFirstAux n l).map (fun w => l.count w)).sum = l.length := by
  intro n
  induction n with
  | zero =>
    intro l hl
    have : l = [] := List.length_eq_zero.1 (Nat.le_zero.1 hl)
    subst this
    simp [uniqueFirstAux]
  | succ n ih =>
    intro l hl
    cases l with
    | nil => simp [uniqueFirstAux]
    | cons a as =>
      rw [uniqueFirstAux, List.map_cons, List.sum_cons]
      have hmapeq :
          (uniqueFirstAux n (as.filter (fun v => v != a))).map
              (fun w => (a :: as).count w)
            = (uniqueFirstAux n (as.filter (fun v => v != a))).map
                (fun w => (as.filter (fun v => v != a)).count w) := by
        apply List.map_congr_left
        intro w hw
        have hw2 := List.mem_filter.1 (mem_uniqueFirstAux _ _ _ hw)
        have hne : w ≠ a := by simpa using hw2.2
        rw [List.count_cons_of_ne hne]
        exact (@List.count_filter String _ _ (fun v => v != a) w as
          (bne_iff_ne.mpr hne)).symm
      have hlen : (as.filter (fun v => v != a)).length ≤ n := by
        have := List.length_filter_le (fun v => v != a) as
        simp only [List.length_cons] at hl
        omega
      rw [hmapeq, ih _ hlen, List.count_cons_self, List.length_cons]
      have h3 := count_add_length_filter_ne a as
      omega

theorem sum_count_uniqueFirst (l : List String) :
    ((uniqueFirst l).map (fun w => l.count w)).sum = l.length :=
  sum_count_uniqueFirstAux l.length l le_rfl

theorem mem_insertEntry (x z : KWEntry) : ∀ l, z ∈ insertEntry x l ↔ z = x ∨ z ∈ l := by
  intro l
  induction l with
  | nil => simp [insertEntry]
  | cons y ys ih =>
    cases hb : entryBefore y x
    · simp only [insertEntry, hb, Bool.false_eq_true, if_false, List.mem_cons]
    · simp only [insertEntry, hb, if_true, List.mem_cons, ih]
      tauto

theorem insertEntry_perm (x : KWEntry) : ∀ l, (insertEntry x l).Perm (x :: l) := by
  intro l
  induction l with
  | nil => rfl
  | cons y ys ih =>
    cases hb : entryBefore y x
    · simp [insertEntry, hb]
    · rw [insertEntry, if_pos hb]
      exact (ih.cons y).trans (List.Perm.swap x y ys)

theorem sortEntries_perm : ∀ l, (sortEntries l).Perm l := by
  intro l
  induction l with
  | nil => rfl
  | cons x xs ih => exact (insertEntry_perm x (sortEntries xs)).trans (ih.cons x)

theorem entryBefore_iff (a b : KWEntry) : entryBefore a b = true ↔ entryLE a b := by
  simp [entryBefore, entryLE]

theorem entryLE_total (a b : KWEntry) : entryLE a b ∨ entryLE b a := by
  unfold entryLE; omega

theorem entryLE_trans (a b c : KWEntry) : entryLE a b → entryLE b c → entryLE a c := by
  unfold entryLE; omega

theorem pairwise_insertEntry (x : KWEntry) : ∀ l, List.Pairwise entryLE l →
    List.Pairwise entryLE (insertEntry x l) := by
  intro l
  induction l with
  | nil => intro _; simp [insertEntry, entryLE]
  | cons y ys ih =>
    intro hp
    rcases List.pairwise_cons.1 hp with ⟨hy, hys⟩
    cases hb : entryBefore y x
    · rw [insertEntry, if_neg (by simp [hb])]
      refine List.pairwise_cons.2 ⟨?_, hp⟩
      intro z hz
      have hxy : entryLE x y := by
        have hny : ¬ entryLE y x := fun hcon => by
          rw [← entryBefore_iff] at hcon
          simp [hb] at hcon
        exact (entryLE_total x y).resolve_right hny
      rcases List.mem_cons.1 hz with rfl | hz'
      · exact hxy
      · exact entryLE_trans x y z hxy (hy z hz')
    · rw [insertEntry, if_pos hb]
      refine List.pairwise_cons.2 ⟨?_, ih hys⟩
      intro z hz
      rcases (mem_insertEntry x z ys).1 hz with rfl | hz'
      · exact (entryBefore_iff y z).1 hb
      · exact hy z hz'

theorem pairwise_sortEntries : ∀ l, List.Pairwise entryLE (sortEntries l) := by
  intro l
  induction l with
  | nil => simp [sortEntries]
  | cons x xs ih => exact pairwise_insertEntry x _ ih

theorem pairwise_firstIdx_ne (stop : List String) (minLen : ℕ) (tokens : List String) :
    List.Pairwise (fun a b : KWEntry => a.firstIdx ≠ b.firstIdx)
      (kwEntries stop minLen tokens) := by
  rw [kwEntries, List.pairwise_map]
  refine (nodup_uniqueFirst (filteredTokens stop minLen tokens)).imp_of_mem ?_
  intro a b ha hb hne heq
  exact hne ((List.indexOf_inj (mem_uniqueFirst _ _ ha) (mem_uniqueFirst _ _ hb)).1 heq)

theorem pairwise_ordered_rankedEntries (tokens stop : List String) (minLen maxN : ℕ) :
    List.Pairwise entryOrdered (rankedEntries tokens stop minLen maxN) := by
  have h1 := pairwise_sortEntries (kwEntries stop minLen tokens)
  have h2 : List.Pairwise (fun a b : KWEntry => a.firstIdx ≠ b.firstIdx)
      (sortEntries (kwEntries stop minLen tokens)) := by
    refine (pairwise_firstIdx_ne stop minLen tokens).perm (sortEntries_perm _).symm ?_
    intro x y hxy
    exact hxy.symm
  have h4 : List.Pairwise entryOrdered (sortEntries (kwEntries stop minLen tokens)) := by
    refine (h1.and h2).imp ?_
    rintro a b ⟨hle, hne⟩
    rcases hle with h | ⟨hf, hi⟩
    · exact Or.inl h
    · exact Or.inr ⟨hf, lt_of_le_of_ne hi hne⟩
  exact List.Pairwise.sublist (List.take_sublist _ _) h4

theorem sum_map_div_cast (l : List KWEntry) (c : ℚ) :
    (l.map (fun e => (e.frequency : ℚ) / c)).sum
      = (((l.map KWEntry.frequency).sum : ℕ) : ℚ) / c := by
  induction l with
  | nil => simp
  | cons x xs ih =>
    simp only [List.map_cons, List.sum_cons, ih]
    push_cast
    rw [add_div]

theorem nat_sum_take_le (l : List ℕ) (n : ℕ) : (l.take n).sum ≤ l.sum := by
  conv_rhs => rw [← List.take_append_drop n l]
  rw [List.sum_append]
  exact Nat.le_add_right _ _

theorem freq_sum_le (tokens stop : List String) (minLen maxN : ℕ) :
    ((rankedEntries tokens stop minLen maxN).map KWEntry.frequency).sum ≤ tokens.length := by
  have h1 : ((rankedEntries tokens stop minLen maxN).map KWEntry.frequency).sum
      ≤ ((sortEntries (kwEntries stop minLen tokens)).map KWEntry.frequency).sum := by
    rw [rankedEntries, List.map_take]
    exact nat_sum_take_le _ _
  have h2 : ((sortEntries (kwEntries stop minLen tokens)).map KWEntry.frequency).sum
      = ((kwEntries stop minLen tokens).map KWEntry.frequency).sum :=
    ((sortEntries_perm _).map KWEntry.frequency).sum_eq
  have h3 : ((kwEntries stop minLen tokens).map KWEntry.frequency).sum
      = (filteredTokens stop minLen tokens).length := by
    rw [kwEntries, List.map_map]
    exact sum_count_uniqueFirst (filteredTokens stop minLen tokens)
  have h4 : (filteredTokens stop minLen tokens).length ≤ tokens.length :=
    List.length_filter_le _ _
  omega

theorem countP_bool_add {α : Type} (p : α → Bool) (l : List α) :
    l.countP p + l.countP (fun a => !p a) = l.length := by
  induction l with
  | nil => simp
  | cons x xs ih =>
    cases hx : p x
    · simp only [List.countP_cons, hx, Bool.not_false, if_true, if_false,
        Bool.false_eq_true, List.length_cons]
      omega
    · simp only [List.countP_cons, hx, Bool.not_true, if_true, if_false,
        Bool.false_eq_true, List.length_cons]
      omega

theorem fallback_topics_matches_recorded_run :
    fallback_topics introText STOP_WORDS 3 10
      = ["artificial", "intelligence", "healthcare:", "comprehensive", "analysis",
         "introduction:", "(ai)", "emerged", "transformative", "technology"] := by
  decide

theorem title_matches_recorded_run :
    title_from_filename "ai_healthcare_analysis.txt" = "Ai Healthcare Analysis" := by
  decide

theorem example_tokens_eq :
    tokenize_words exampleText
      = ["healthcare", "ai", "improves", "diagnosis", "healthcare", "ai",
         "reduces", "costs"] := by
  decide

theorem example_keywords_eq :
    (analyze_text none exampleText).keywords
      = [{ word := "healthcare", frequency := 2,
           relevance_score := ((2:ℕ):ℚ)/((8:ℕ):ℚ) },
         { word := "improves", frequency := 1,
           relevance_score := ((1:ℕ):ℚ)/((8:ℕ):ℚ) },
         { word := "diagnosis", frequency := 1,
           relevance_score := ((1:ℕ):ℚ)/((8:ℕ):ℚ) },
         { word := "reduces", frequency := 1,
           relevance_score := ((1:ℕ):ℚ)/((8:ℕ):ℚ) },
         { word := "costs", frequency := 1,
           relevance_score := ((1:ℕ):ℚ)/((8:ℕ):ℚ) }] := by
  rfl

/-- C1: a batch run over N documents, M of which fail extraction, produces
exactly N MetadataRecords, exactly M of them with
`processing_info.success = false` and N − M with it true; no document is
dropped and a per-document failure never aborts the batch. -/
theorem C1_batch_record_counts (extractor : Option EntityExtractor)
    (docs : List DocumentFacts) (now : ℕ) :
    ((process_directory extractor docs now).1).length = docs.length ∧
    ((process_directory extractor docs now).1).countP
        (fun r => !r.processing_info.success)
      = docs.countP (fun d => !d.success) ∧
    ((process_directory extractor docs now).1).countP
        (fun r => r.processing_info.success)
      = docs.length - docs.countP (fun d => !d.success) := by
  refine ⟨by simp [process_directory], ?_, ?_⟩
  · rw [process_directory]
    rw [List.countP_map]
    rfl
  · rw [process_directory]
    rw [List.countP_map]
    have hsum := countP_bool_add (fun d => d.success) docs
    have hcongr : docs.countP
        ((fun r : MetadataRecord => r.processing_info.success)
          ∘ fun d => generate_metadata extractor d now)
      = docs.countP (fun d => d.success) := rfl
    rw [hcongr]
    omega

theorem word_count_factor_nonneg (wc : ℕ) : 0 ≤ word_count_factor wc := by
  rw [word_count_factor]
  positivity

theorem word_count_factor_mono {wc wc' : ℕ} (h : wc ≤ wc') :
    word_count_factor wc ≤ word_count_factor wc' := by
  rw [word_count_factor, word_count_factor]
  have h2 : ((min wc 50 : ℕ) : ℚ) ≤ ((min wc' 50 : ℕ) : ℚ) := by
    exact_mod_cast min_le_min h le_rfl
  gcongr

theorem readability_bonus_nonneg (r : ℚ) : 0 ≤ readability_bonus r := by
  rw [readability_bonus]
  split_ifs <;> norm_num

theorem readability_bonus_mono {r r' : ℚ} (h : r ≤ r') :
    readability_bonus r ≤ readability_bonus r' := by
  rw [readability_bonus, readability_bonus]
  split_ifs <;> linarith

theorem bool_bonus_nonneg (b : Bool) {q : ℚ} (hq : 0 ≤ q) :
    0 ≤ if b then q else 0 := by
  cases b <;> simp [hq]

theorem quality_mono_wc (s hasKw hasEnt : Bool) (r : ℚ) {wc wc' : ℕ} (h : wc ≤ wc') :
    quality_score_of s wc hasKw hasEnt r ≤ quality_score_of s wc' hasKw hasEnt r := by
  rw [quality_score_of, quality_score_of]
  cases s
  · simp
  · simp only [if_true]
    have := word_count_factor_mono h
    exact min_le_min le_rfl (by linarith)

theorem quality_mono_r (s hasKw hasEnt : Bool) (wc : ℕ) {r r' : ℚ} (h : r ≤ r') :
    quality_score_of s wc hasKw hasEnt r ≤ quality_score_of s wc hasKw hasEnt r' := by
  rw [quality_score_of, quality_score_of]
  cases s
  · simp
  · simp only [if_true]
    have := readability_bonus_mono h
    exact min_le_min le_rfl (by linarith)

theorem quality_mono_success (wc : ℕ) (hasKw hasEnt : Bool) (r : ℚ) :
    quality_score_of false wc hasKw hasEnt r ≤ quality_score_of true wc hasKw hasEnt r := by
  rw [quality_score_of, quality_score_of]
  simp only [Bool.false_eq_true, if_false, if_true]
  have h1 := word_count_factor_nonneg wc
  have h2 := readability_bonus_nonneg r
  have h3 := bool_bonus_nonneg hasKw (by norm_num : (0:ℚ) ≤ 10)
  have h4 := bool_bonus_nonneg hasEnt (by norm_num : (0:ℚ) ≤ 10)
  exact le_min (by norm_num) (by linarith)

theorem quality_mono_kw (s hasEnt : Bool) (wc : ℕ) (r : ℚ) :
    quality_score_of s wc false hasEnt r ≤ quality_score_of s wc true hasEnt r := by
  rw [quality_score_of, quality_score_of]
  cases s
  · simp
  · simp only [if_true, Bool.false_eq_true, if_false]
    exact min_le_min le_rfl (by linarith)

theorem quality_mono_ent (s hasKw : Bool) (wc : ℕ) (r : ℚ) :
    quality_score_of s wc hasKw false r ≤ quality_score_of s wc hasKw true r := by
  rw [quality_score_of, quality_score_of]
  cases s
  · simp
  · simp only [if_true, Bool.false_eq_true, if_false]
    exact min_le_min le_rfl (by linarith)

/-- C2: the quality score is monotone — improving any single input factor
(extraction success, word count, keyword presence, entity presence or the
readability score) while holding the others fixed never decreases it; and
it is exactly the score the Metadata Derivation Engine stores. -/
theorem C2_quality_monotone (a : SemanticAnalysisResult) (f : DocumentFacts)
    (s hasKw hasEnt : Bool) {wc wc' : ℕ} {r r' : ℚ}
    (hwc : wc ≤ wc') (hr : r ≤ r') :
    quality_score_of s wc hasKw hasEnt r ≤ quality_score_of s wc' hasKw hasEnt r ∧
    quality_score_of s wc hasKw hasEnt r ≤ quality_score_of s wc hasKw hasEnt r' ∧
    quality_score_of false wc hasKw hasEnt r ≤ quality_score_of true wc hasKw hasEnt r ∧
    quality_score_of s wc false hasEnt r ≤ quality_score_of s wc true hasEnt r ∧
    quality_score_of s wc hasKw false r ≤ quality_score_of s wc hasKw true r ∧
    (derive_metadata a f).quality_score
      = quality_score_of f.success a.text_statistics.word_count
          (!a.keywords.isEmpty) (!a.entities.isEmpty) a.readability_score :=
  ⟨quality_mono_wc s hasKw hasEnt r hwc, quality_mono_r s hasKw hasEnt wc hr,
   quality_mono_success wc hasKw hasEnt r, quality_mono_kw s hasEnt wc r,
   quality_mono_ent s hasKw wc r, rfl⟩

theorem C2_quality_monotone_witness :
    quality_score_of true 10 true false 0 ≤ quality_score_of true 60 true false 0 ∧
    quality_score_of true 10 true false 0 ≤ quality_score_of true 10 true false 50 ∧
    quality_score_of false 10 true false 0 ≤ quality_score_of true 10 true false 0 ∧
    quality_score_of true 10 false false 0 ≤ quality_score_of true 10 true false 0 ∧
    quality_score_of true 10 true false 0 ≤ quality_score_of true 10 true true 0 ∧
    (derive_metadata (analyze_text none exampleText) sampleFacts).quality_score
      = quality_score_of sampleFacts.success
          (analyze_text none exampleText).text_statistics.word_count
          (!(analyze_text none exampleText).keywords.isEmpty)
          (!(analyze_text none exampleText).entities.isEmpty)
          (analyze_text none exampleText).readability_score :=
  C2_quality_monotone (analyze_text none exampleText) sampleFacts true true false
    (by norm_num) (by norm_num)

/-- C3: every returned keyword's relevance_score equals its frequency
divided by the total token count (plain term frequency, with no
inverse-document-frequency term in the formula), and a total token count
of 0 yields the empty sequence rather than an error. -/
theorem C3_relevance_is_term_frequency (tokens stop : List String) (minLen maxN : ℕ) :
    (∀ kw ∈ score_keywords tokens stop minLen maxN,
        kw.relevance_score = (kw.frequency : ℚ) / (tokens.length : ℚ)) ∧
    (tokens.length = 0 → score_keywords tokens stop minLen maxN = []) := by
  constructor
  · intro kw hkw
    rw [score_keywords] at hkw
    rcases List.mem_map.1 hkw with ⟨e, _, rfl⟩
    rfl
  · intro h
    have h2 : tokens = [] := List.length_eq_zero.1 h
    subst h2
    simp [score_keywords, rankedEntries, kwEntries, filteredTokens,
      uniqueFirst, uniqueFirstAux, sortEntries]

theorem C3_relevance_is_term_frequency_witness :
    ({ word := "healthcare", frequency := 2,
       relevance_score := ((2:ℕ):ℚ)/((8:ℕ):ℚ) } : Keyword).relevance_score
      = ((({ word := "healthcare", frequency := 2,
             relevance_score := ((2:ℕ):ℚ)/((8:ℕ):ℚ) } : Keyword).frequency : ℕ) : ℚ)
          / (((tokenize_words exampleText).length : ℕ) : ℚ) ∧
    score_keywords [] STOP_WORDS 3 20 = [] :=
  ⟨(C3_relevance_is_term_frequency (tokenize_words exampleText) STOP_WORDS 3 20).1
      { word := "healthcare", frequency := 2,
        relevance_score := ((2:ℕ):ℚ)/((8:ℕ):ℚ) }
      (by rw [show score_keywords (tokenize_words exampleText) STOP_WORDS 3 20
                = (analyze_text none exampleText).keywords from rfl,
              example_keywords_eq]
          exact List.mem_cons_self _ _),
   (C3_relevance_is_term_frequency [] STOP_WORDS 3 20).2 rfl⟩

/-- C4: for every input, the returned relevance scores sum to at most 1
and are non-increasing in the returned order, and the ranking of the
returned entries is strictly ordered — descending frequency with ties
broken by strictly earlier first-occurrence index. -/
theorem C4_scores_ordered_and_bounded (tokens stop : List String) (minLen maxN : ℕ) :
    ((score_keywords tokens stop minLen maxN).map Keyword.relevance_score).sum ≤ 1 ∧
    List.Pairwise (fun a b : Keyword => b.relevance_score ≤ a.relevance_score)
      (score_keywords tokens stop minLen maxN) ∧
    List.Pairwise entryOrdered (rankedEntries tokens stop minLen maxN) := by
  refine ⟨?_, ?_, pairwise_ordered_rankedEntries tokens stop minLen maxN⟩
  · rcases Nat.eq_zero_or_pos tokens.length with h0 | hpos
    · have h2 : tokens = [] := List.length_eq_zero.1 h0
      subst h2
      norm_num [score_keywords, rankedEntries, kwEntries, filteredTokens,
        uniqueFirst, uniqueFirstAux, sortEntries]
    · have hs : ((score_keywords tokens stop minLen maxN).map Keyword.relevance_score).sum
          = ((((rankedEntries tokens stop minLen maxN).map KWEntry.frequency).sum : ℕ) : ℚ)
              / ((tokens.length : ℕ) : ℚ) := by
        rw [score_keywords, List.map_map]
        exact sum_map_div_cast _ _
      rw [hs, div_le_one (by exact_mod_cast hpos)]
      exact_mod_cast freq_sum_le tokens stop minLen maxN
  · rcases Nat.eq_zero_or_pos tokens.length with h0 | hpos
    · have h2 : tokens = [] := List.length_eq_zero.1 h0
      subst h2
      simp [score_keywords, rankedEntries, kwEntries, filteredTokens,
        uniqueFirst, uniqueFirstAux, sortEntries]
    · rw [score_keywords, List.pairwise_map]
      refine (pairwise_ordered_rankedEntries tokens stop minLen maxN).imp ?_
      intro a b hab
      have hfreq : b.frequency ≤ a.frequency := by
        rcases hab with h | ⟨h, _⟩ <;> omega
      have hlen : (0:ℚ) < (tokens.length : ℚ) := by exact_mod_cast hpos
      exact (div_le_div_iff_of_pos_right hlen).mpr (by exact_mod_cast hfreq)

/-- C5 counterexample: on the spec's own example text, under the default
minimum token length of 3, "ai" is not among the returned keywords at all
(its normalized token has length 2), so the claimed output — both
"healthcare" and "ai" present with equal scores — is false. -/
theorem C5_example_counterexample :
    ¬ ("ai" ∈ (analyze_text none exampleText).keywords.map Keyword.word) ∧
    "healthcare" ∈ (analyze_text none exampleText).keywords.map Keyword.word := by
  constructor
  · rw [example_keywords_eq]
    decide
  · rw [example_keywords_eq]
    decide

/-- C5 (amended): on the example text the analysis returns "healthcare"
first with relevance 2/8, while "ai" is excluded by the default minimum
token length of 3; the remaining keywords each score 1/8 and follow in
first-occurrence order. -/
theorem C5_example_amended :
    (analyze_text none exampleText).keywords.map Keyword.word
      = ["healthcare", "improves", "diagnosis", "reduces", "costs"] ∧
    (analyze_text none exampleText).keywords.map Keyword.relevance_score
      = [((2:ℕ):ℚ)/((8:ℕ):ℚ), ((1:ℕ):ℚ)/((8:ℕ):ℚ), ((1:ℕ):ℚ)/((8:ℕ):ℚ),
         ((1:ℕ):ℚ)/((8:ℕ):ℚ), ((1:ℕ):ℚ)/((8:ℕ):ℚ)] := by
  constructor
  · rw [example_keywords_eq]
    rfl
  · rw [example_keywords_eq]
    rfl

/-- C6: the Readability Estimator returns exactly 0 whenever the sentence
count is 0 (the degenerate empty / whitespace-only case), and its value
always lies in `[0, 100]`. -/
theorem C6_readability_range (sc wc syl : ℕ) :
    (sc = 0 → readability_formula sc wc syl = 0) ∧
    (0 ≤ readability_formula sc wc syl ∧ readability_formula sc wc syl ≤ 100) ∧
    (∀ t : String, (sentences t).length = 0 →
        (analyze_text none t).readability_score = 0) := by
  refine ⟨?_, ?_, ?_⟩
  · intro h
    simp [readability_formula, h]
  · rw [readability_formula]
    split_ifs with h1 h2
    · norm_num
    · norm_num
    · exact ⟨le_max_left _ _, max_le (by norm_num) (min_le_left _ _)⟩
  · intro t ht
    show readability_formula (text_statistics t).sentence_count
        (text_statistics t).word_count (totalSyllables (tokenize_words t)) = 0
    have hsc : (text_statistics t).sentence_count = 0 := ht
    rw [hsc]
    simp [readability_formula]

theorem C6_readability_range_witness :
    readability_formula 0 5 7 = 0 ∧
    (0 ≤ readability_formula 2 8 10 ∧ readability_formula 2 8 10 ≤ 100) ∧
    (analyze_text none "   ").readability_score = 0 :=
  ⟨(C6_readability_range 0 5 7).1 rfl, (C6_readability_range 2 8 10).2.1,
   (C6_readability_range 0 0 0).2.2 "   " (by decide)⟩

/-- C7 counterexample: the claim's round-up formula gives 2 minutes for a
240-word document, but the pipeline (as the notebook's recorded run
shows) reports 1 minute for 240 words — the stored reading time rounds
down, not up. -/
theorem C7_reading_time_counterexample :
    (derive_metadata sampleAnalysis240 sampleFacts).estimated_reading_time = 1 ∧
    reading_time_spec_roundup 240 = 2 := by
  constructor
  · decide
  · decide

/-- C7 (amended): the estimated reading time is the word count divided by
200 words per minute rounded down, with a floor of one minute (so a
240-word document yields 1 minute, not 2). -/
theorem C7_reading_time_amended (a : SemanticAnalysisResult) (f : DocumentFacts) :
    (derive_metadata a f).estimated_reading_time
        = max 1 (a.text_statistics.word_count / 200) ∧
    1 ≤ (derive_metadata a f).estimated_reading_time ∧
    reading_time_minutes 240 = 1 :=
  ⟨rfl, le_max_left _ _, rfl⟩

/-- C8 counterexample: with the linguistic model unavailable, the topic
list is not the lower-cased top-N keyword list — on the example text the
topics keep punctuation-attached raw tokens ("diagnosis.", "costs.")
that never appear among the scored keywords. -/
theorem C8_fallback_counterexample :
    (analyze_text none exampleText).topics ≠
      ((analyze_text none exampleText).keywords.map Keyword.word).take 10 ∧
    (analyze_text none exampleText).entities = [] := by
  constructor
  · rw [example_keywords_eq]
    decide
  · rfl

/-- C8 (amended): whenever the linguistic model is unavailable the
analyzer returns an empty entity sequence and a topic list of the first
distinct raw tokens (lower-cased, punctuation retained, length- and
stop-word-filtered) in first-occurrence order; downstream derivation
treats the empty entity sequence as a valid result with `key_entities`
empty, never as an error. -/
theorem C8_fallback_amended (t : String) (f : DocumentFacts) :
    (analyze_text none t).entities = [] ∧
    (analyze_text none t).topics = fallback_topics t STOP_WORDS 3 10 ∧
    (derive_metadata (analyze_text none t) f).key_entities = [] :=
  ⟨rfl, rfl, rfl⟩

/-- C9: the Metadata Derivation Engine is deterministic — it is a pure
function of the analysis result and document facts, and the derived
metadata (and the analysis it consumes) do not depend on the
orchestrator's clock, which feeds only the processing timestamp. -/
theorem C9_derivation_deterministic (extractor : Option EntityExtractor)
    (f : DocumentFacts) (t t' : ℕ) :
    (generate_metadata extractor f t).derived_metadata
        = (generate_metadata extractor f t').derived_metadata ∧
    (generate_metadata extractor f t).content_analysis
        = (generate_metadata extractor f t').content_analysis ∧
    (generate_metadata extractor f t).processing_info.timestamp = t :=
  ⟨rfl, rfl, rfl⟩

/-- C10: for a successfully processed document, the persisted record's
`extraction_info` carries a `text` field holding the full extracted text
of the document. -/
theorem C10_record_embeds_text (extractor : Option EntityExtractor)
    (f : DocumentFacts) (now : ℕ) (h : f.success = true) :
    (generate_metadata extractor f now).extraction_info.text = f.text := by
  simp [generate_metadata, h]

theorem C10_record_embeds_text_witness :
    (generate_metadata none sampleFacts 0).extraction_info.text = sampleFacts.text :=
  C10_record_embeds_text none sampleFacts 0 rfl

end MetaGen
